import Mathlib

/-!
Verification of the flashcard generator (`flash_g_v2.py`).

The program is a linear pipeline: text extraction, paragraph selection,
flashcard generation via an external pretrained model, and export to a Word
document or a paginated PDF.  Strings are modelled as `List Char` (Python
strings are sequences of code points, and `len` counts code points).  The
pretrained model invoked by `generate_questions` is an external black box; it
is modelled as a parameter `gen : List Char → Except PyExc (List (List Char))`
that may either return a list of decoded question strings or raise.
-/

namespace FlashG

/-- Python exceptions, as far as this program distinguishes them. -/
inductive PyExc
  | valueError (msg : List Char)
  | attributeError (msg : List Char)
  | other (msg : List Char)
deriving DecidableEq

/-- Characters stripped by Python's `str.strip()` (the ASCII whitespace set;
the program's data never contains the further Unicode whitespace). -/
def pyIsSpace (c : Char) : Bool :=
  c = ' ' || c = '\t' || c = '\n' || c = '\x0d' || c = '\x0b' || c = '\x0c'

/-- Python `s.strip()`: drop whitespace from the front, then from the back. -/
def pyStrip (s : List Char) : List Char :=
  ((s.dropWhile pyIsSpace).reverse.dropWhile pyIsSpace).reverse

/-- Python `text.split(sep)` for a one-character separator: split into the
segments between occurrences of `sep`, keeping empty segments, so that the
result always has one more element than `text` has separators. -/
def splitOnChar (sep : Char) : List Char → List (List Char)
  | [] => [[]]
  | c :: rest =>
    if c = sep then [] :: splitOnChar sep rest
    else
      match splitOnChar sep rest with
      | [] => [[c]]
      | p :: ps => (c :: p) :: ps

/-- `get_relevant_paragraphs(text, min_len=80, max_len=400, limit=25)`:
`[p.strip() for p in text.split("\n") if min_len <= len(p.strip()) <= max_len][:limit]`.
Defaults are passed explicitly at call sites. -/
def get_relevant_paragraphs (text : List Char) (min_len max_len limit : Nat) :
    List (List Char) :=
  (((splitOnChar '\n' text).filter
      (fun p => decide (min_len ≤ (pyStrip p).length ∧ (pyStrip p).length ≤ max_len))).map
    pyStrip).take limit

/-- Spec-side restatement of paragraph selection, following the spec's words:
"split on newlines, trim whitespace, keep only paragraphs whose trimmed length
falls within the bounds, and return at most the requested count in original
order".  Compared with the source definition in the refinement theorem. -/
def selectedParagraphsSpec (text : List Char) (min_len max_len limit : Nat) :
    List (List Char) :=
  ((((splitOnChar '\n' text).map pyStrip).filter
      (fun p => decide (min_len ≤ p.length ∧ p.length ≤ max_len))).take limit)

/-- A flashcard is a (question, answer) pair. -/
abbrev Flashcard := List Char × List Char

/-- `generate_flashcards(text, max_flashcards=25)`: for each selected paragraph
call `generate_questions` (the model, here the parameter `gen`); on success
append one flashcard `(q, para)` per question, on an exception skip the
paragraph (the `try`/`except` around the inner loop). -/
def generate_flashcards (gen : List Char → Except PyExc (List (List Char)))
    (text : List Char) (max_flashcards : Nat) : List Flashcard :=
  (get_relevant_paragraphs text 80 400 max_flashcards).foldl
    (fun flashcards para =>
      match gen para with
      | Except.ok qs => flashcards ++ qs.map (fun q => (q, para))
      | Except.error _ => flashcards)
    []

/-- Number of questions the model yields for a paragraph (0 when it raises). -/
def questionCount (gen : List Char → Except PyExc (List (List Char)))
    (para : List Char) : Nat :=
  match gen para with
  | Except.ok qs => qs.length
  | Except.error _ => 0

/-- The file system seen through the three reader libraries: `open(...).read()`
for text files, the paragraph texts of a `.docx` (python-docx), and the
per-page extracted text of a `.pdf` (PyMuPDF).  Reads are total here; decode
failures of the third-party readers are outside the program. -/
structure FS where
  readText : List Char → List Char
  docxParagraphs : List Char → List (List Char)
  pdfPages : List Char → List (List Char)

/-- `extract_text_from_docx`: join with newlines the paragraph texts whose
strip is truthy (non-empty). -/
def extract_text_from_docx (paragraphs : List (List Char)) : List Char :=
  List.intercalate ['\n'] (paragraphs.filter (fun p => decide (pyStrip p ≠ [])))

/-- `extract_text_from_pdf`: concatenate the page texts in page order
(`text += page.get_text()`). -/
def extract_text_from_pdf (pages : List (List Char)) : List Char :=
  pages.foldl (fun acc page => acc ++ page) []

/-- The `".txt"` extension as a character list (`path.endswith(".txt")`). -/
def extTxt : List Char := ['.', 't', 'x', 't']

/-- The `".docx"` extension as a character list. -/
def extDocx : List Char := ['.', 'd', 'o', 'c', 'x']

/-- The `".pdf"` extension as a character list. -/
def extPdf : List Char := ['.', 'p', 'd', 'f']

/-- Error message of the unsupported-extension branch. -/
def unsupportedMsg : List Char :=
  ['U', 'n', 's', 'u', 'p', 'p', 'o', 'r', 't', 'e', 'd', ' ',
   'f', 'i', 'l', 'e', ' ', 't', 'y', 'p', 'e', '.']

/-- `extract_text(path)`: dispatch on the path suffix; unsupported extensions
raise `ValueError("Unsupported file type.")`. -/
def extract_text (fs : FS) (path : List Char) : Except PyExc (List Char) :=
  if extTxt.isSuffixOf path then Except.ok (fs.readText path)
  else if extDocx.isSuffixOf path then
    Except.ok (extract_text_from_docx (fs.docxParagraphs path))
  else if extPdf.isSuffixOf path then
    Except.ok (extract_text_from_pdf (fs.pdfPages path))
  else Except.error (PyExc.valueError unsupportedMsg)

/-- One block added to the Word document: a heading with a level, or a
paragraph with an optional style name. -/
inductive DocxItem
  | heading (text : List Char) (level : Nat)
  | par (text : List Char) (style : Option (List Char))
deriving DecidableEq

/-- Flashcard section of the Word export, numbering from `i` (`enumerate(flashcards, 1)`). -/
def wordCards : Nat → List Flashcard → List DocxItem
  | _, [] => []
  | i, fc :: rest =>
    DocxItem.par ("Flashcard #".data ++ (Nat.repr i).data) (some "Heading2".data)
      :: DocxItem.par ("Q: ".data ++ fc.1) none
      :: DocxItem.par ("A: ".data ++ fc.2) none
      :: DocxItem.par [] none
      :: wordCards (i + 1) rest

/-- `export_to_word(path, flashcards)`: the sequence of blocks written to the
document — a level-1 heading, the timestamp paragraph, then each flashcard's
blocks.  `now` is the formatted `datetime.datetime.now()` string. -/
def export_to_word (now : List Char) (flashcards : List Flashcard) : List DocxItem :=
  DocxItem.heading "Flashcards".data 1
    :: DocxItem.par ("Generated on ".data ++ now ++ ['\n']) none
    :: wordCards 1 flashcards

/-- One `drawString` call recorded on the PDF canvas, with the font that was
current when it ran.  All coordinates in `export_to_pdf` are integer-valued
(the float arithmetic `742 - 55·k` is exact in IEEE doubles at this scale), so
`Int` models them exactly. -/
structure DrawCmd where
  x : Int
  y : Int
  fontName : List Char
  fontSize : Nat
  text : List Char
deriving DecidableEq

/-- A reportlab canvas: finished pages, the current page, the current font. -/
structure Canvas where
  pages : List (List DrawCmd)
  cur : List DrawCmd
  fontName : List Char
  fontSize : Nat
deriving DecidableEq

/-- `canvas.setFont(name, size)`. -/
def Canvas.setFont (c : Canvas) (f : List Char) (s : Nat) : Canvas :=
  { c with fontName := f, fontSize := s }

/-- `canvas.drawString(x, y, text)`. -/
def Canvas.drawString (c : Canvas) (x y : Int) (t : List Char) : Canvas :=
  { c with cur := c.cur ++ [⟨x, y, c.fontName, c.fontSize, t⟩] }

/-- `canvas.showPage()`: finish the current page (reportlab resets the page
state; the program sets a font before every draw, so the reset font value is
never observed). -/
def Canvas.showPage (c : Canvas) : Canvas :=
  ⟨c.pages ++ [c.cur], [], "Helvetica".data, 12⟩

/-- `canvas.save()`: the trailing partial page is emitted as the last page. -/
def Canvas.save (c : Canvas) : Canvas :=
  ⟨c.pages ++ [c.cur], [], c.fontName, c.fontSize⟩

/-- Body of one iteration of the `export_to_pdf` loop at index `i`: new page if
fewer than 100 points remain, then header, question and answer lines. -/
def pdfCard (i : Nat) (fc : Flashcard) (c : Canvas) (y : Int) : Canvas × Int :=
  let s := if y < 100 then (c.showPage, (792 : Int) - 50) else (c, y)
  let c := s.1
  let y := s.2
  let c := c.setFont "Helvetica-Bold".data 11
  let c := c.drawString 50 y ("Flashcard #".data ++ (Nat.repr i).data)
  let y := y - 15
  let c := c.setFont "Helvetica".data 10
  let c := c.drawString 50 y ("Q: ".data ++ fc.1)
  let y := y - 15
  let c := c.drawString 50 y ("A: ".data ++ fc.2)
  (c, y - 25)

/-- The `for i, (q, a) in enumerate(flashcards, 1)` loop of `export_to_pdf`. -/
def pdfLoop : Nat → List Flashcard → Canvas → Int → Canvas × Int
  | _, [], c, y => (c, y)
  | i, fc :: rest, c, y =>
    let s := pdfCard i fc c y
    pdfLoop (i + 1) rest s.1 s.2

/-- `export_to_pdf(path, flashcards)`: title and timestamp header, the
flashcard loop, then `save()`.  The page height of `letter` is 792 points. -/
def export_to_pdf (now : List Char) (flashcards : List Flashcard) : Canvas :=
  let c : Canvas := ⟨[], [], "Helvetica".data, 12⟩
  let y : Int := 792 - 50
  let c := c.setFont "Helvetica-Bold".data 14
  let c := c.drawString 50 y "Flashcards".data
  let c := c.setFont "Helvetica".data 10
  let y := y - 25
  let c := c.drawString 50 y ("Generated on ".data ++ now)
  let y := y - 30
  (pdfLoop 1 flashcards c y).1.save

/-- Python `str.lower()` on the characters this program compares (ASCII). -/
def pyLower (c : Char) : Char :=
  if 'A' ≤ c ∧ c ≤ 'Z' then Char.ofNat (c.toNat + 32) else c

/-- `s.strip().lower()`, as applied to the export-format dialog reply. -/
def pyStripLower (s : List Char) : List Char := (pyStrip s).map pyLower

/-- Observable outcome of `FlashcardApp.export_output`.  `attrError` is the
`AttributeError` from `None.strip()` when the format dialog is cancelled: it
propagates out of the handler uncaught.  The `saved*` outcomes carry the
content written; the other outcomes write nothing. -/
inductive ExportOutcome
  | noData
  | attrError
  | invalidFormat
  | saveCancelled
  | savedPdf (path : List Char) (content : Canvas)
  | savedWord (path : List Char) (content : List DocxItem)
deriving DecidableEq

/-- `FlashcardApp.export_output`: guard on empty `self.flashcards`, ask for a
format (`dialogReply`, `none` when cancelled), validate it, ask for a save
path (`saveReply`, `none` when the file dialog is cancelled), then export. -/
def export_output (flashcards : List Flashcard) (dialogReply : Option (List Char))
    (saveReply : Option (List Char)) (now : List Char) : ExportOutcome :=
  if flashcards = [] then ExportOutcome.noData
  else
    match dialogReply with
    | none => ExportOutcome.attrError
    | some s =>
      let fmt := pyStripLower s
      if fmt ≠ "pdf".data ∧ fmt ≠ "word".data then ExportOutcome.invalidFormat
      else
        match saveReply with
        | none => ExportOutcome.saveCancelled
        | some path =>
          if fmt = "pdf".data then
            ExportOutcome.savedPdf path (export_to_pdf now flashcards)
          else ExportOutcome.savedWord path (export_to_word now flashcards)

/-- Command counts per page as a pure function of the number of flashcards
still to draw, the current `y`, and the commands already on the current page:
a new page begins exactly when `y < 100`; every flashcard draws 3 strings and
lowers `y` by 55; a fresh page starts at `y = 792 - 50 = 742`. -/
def pdfCmdLayout : Nat → Int → Nat → List Nat
  | 0, _, k => [k]
  | n + 1, y, k =>
    if y < 100 then k :: pdfCmdLayout n (742 - 55) 3
    else pdfCmdLayout n (y - 55) (k + 3)

/-- Page plan of a PDF export with `n` flashcards: the header leaves `y = 687`
with 2 commands (title and timestamp) on the first page. -/
def pdfPagePlan (n : Nat) : List Nat := pdfCmdLayout n 687 2

/-! ### Basic lemmas about `pyStrip` and `splitOnChar` -/

/-- The head of `dropWhile p l`, when present, fails `p`. -/
lemma dropWhile_head_false (p : α → Bool) (l : List α) (c : α)
    (h : (l.dropWhile p).head? = some c) : p c = false := by
  have hx := List.head?_dropWhile_not p l
  rw [h] at hx
  exact hx

/-- A list whose head fails `p` is unchanged by `dropWhile p`. -/
lemma dropWhile_eq_self_of_head (p : α → Bool) (l : List α)
    (h : ∀ c, l.head? = some c → p c = false) : l.dropWhile p = l := by
  cases l with
  | nil => rfl
  | cons a t =>
    apply List.dropWhile_cons_of_neg
    simp [h a rfl]

/-- A non-empty `dropWhile` keeps the last element of the original list. -/
lemma dropWhile_getLast? (p : α → Bool) (l : List α)
    (h : l.dropWhile p ≠ []) : (l.dropWhile p).getLast? = l.getLast? := by
  obtain ⟨pre, hpre⟩ := (List.dropWhile_suffix p : l.dropWhile p <:+ l)
  have hx : l.getLast? = (l.dropWhile p).getLast? := by
    conv_lhs => rw [← hpre]
    exact List.getLast?_append_of_ne_nil pre h
  exact hx.symm

/-- Stripping is idempotent. -/
lemma pyStrip_idem (s : List Char) : pyStrip (pyStrip s) = pyStrip s := by
  unfold pyStrip
  set t := s.dropWhile pyIsSpace with ht
  set u := t.reverse.dropWhile pyIsSpace with hu
  have h1 : u.reverse.dropWhile pyIsSpace = u.reverse := by
    apply dropWhile_eq_self_of_head
    intro c hc
    rw [List.head?_reverse] at hc
    have hne : u ≠ [] := by
      intro h0
      rw [h0] at hc
      simp at hc
    rw [hu, dropWhile_getLast? _ _ (hu ▸ hne), List.getLast?_reverse] at hc
    exact dropWhile_head_false pyIsSpace s c (ht ▸ hc)
  have h2 : u.dropWhile pyIsSpace = u := by
    apply dropWhile_eq_self_of_head
    intro c hc
    exact dropWhile_head_false pyIsSpace t.reverse c (hu ▸ hc)
  rw [h1, List.reverse_reverse, h2]

/-- The stripped string is a contiguous substring of the original. -/
lemma pyStrip_substring (s : List Char) : pyStrip s <:+: s := by
  unfold pyStrip
  set t := s.dropWhile pyIsSpace with ht
  have h1 : t <:+ s := ht ▸ List.dropWhile_suffix pyIsSpace
  have h2 : t.reverse.dropWhile pyIsSpace <:+ t.reverse :=
    List.dropWhile_suffix pyIsSpace
  have h3 : (t.reverse.dropWhile pyIsSpace).reverse <+: t := by
    rw [← List.reverse_suffix]
    simpa using h2
  exact h3.isInfix.trans h1.isInfix

/-- Splitting never yields the empty list of segments. -/
lemma splitOnChar_ne_nil (sep : Char) (l : List Char) : splitOnChar sep l ≠ [] := by
  cases l with
  | nil => simp [splitOnChar]
  | cons c rest =>
    by_cases h : c = sep
    · simp [splitOnChar, h]
    · rw [splitOnChar, if_neg h]
      cases splitOnChar sep rest <;> simp

/-- The first segment of a split is a prefix of the list. -/
lemma splitOnChar_head_pre (sep : Char) :
    ∀ (l : List Char) (p : List Char) (ps : List (List Char)),
      splitOnChar sep l = p :: ps → p <+: l := by
  intro l
  induction l with
  | nil =>
    intro p ps h
    rw [splitOnChar] at h
    cases h
    exact List.nil_prefix
  | cons c rest ih =>
    intro p ps h
    by_cases hc : c = sep
    · rw [splitOnChar, if_pos hc] at h
      cases h
      exact List.nil_prefix
    · rw [splitOnChar, if_neg hc] at h
      cases hsp : splitOnChar sep rest with
      | nil => exact absurd hsp (splitOnChar_ne_nil sep rest)
      | cons q qs =>
        rw [hsp] at h
        injection h with h1 h2
        obtain ⟨tail, htail⟩ := ih q qs hsp
        exact ⟨tail, by rw [← h1, List.cons_append, htail]⟩

/-- Every segment of a split is a contiguous substring of the list. -/
lemma substring_of_mem_splitOnChar (sep : Char) :
    ∀ (l : List Char) (p : List Char), p ∈ splitOnChar sep l → p <:+: l := by
  intro l
  induction l with
  | nil =>
    intro p h
    rw [splitOnChar] at h
    simp at h
    simp [h]
  | cons c rest ih =>
    intro p h
    by_cases hc : c = sep
    · rw [splitOnChar, if_pos hc] at h
      rcases List.mem_cons.mp h with h1 | h2
      · simp [h1]
      · exact List.infix_cons (ih p h2)
    · rw [splitOnChar, if_neg hc] at h
      cases hsp : splitOnChar sep rest with
      | nil => exact absurd hsp (splitOnChar_ne_nil sep rest)
      | cons q qs =>
        rw [hsp] at h
        rcases List.mem_cons.mp h with h1 | h2
        · obtain ⟨tail, htail⟩ := splitOnChar_head_pre sep rest q qs hsp
          refine List.IsPrefix.isInfix ⟨tail, ?_⟩
          rw [h1, List.cons_append, htail]
        · refine List.infix_cons (ih p ?_)
          rw [hsp]
          exact List.mem_cons_of_mem q h2

/-! ### Structure of `generate_flashcards` -/

/-- Flashcards contributed by one paragraph: one `(q, para)` per question on
success, nothing when the model raises. -/
def flashBlock (gen : List Char → Except PyExc (List (List Char)))
    (para : List Char) : List Flashcard :=
  match gen para with
  | Except.ok qs => qs.map (fun q => (q, para))
  | Except.error _ => []

/-- Folding an append-step is flattening the per-element blocks. -/
lemma foldl_append_eq_flatten (f : α → List β) :
    ∀ (l : List α) (acc : List β),
      l.foldl (fun acc x => acc ++ f x) acc = acc ++ (l.map f).flatten := by
  intro l
  induction l with
  | nil => intro acc; simp
  | cons x t ih =>
    intro acc
    rw [List.foldl_cons, ih, List.map_cons, List.flatten_cons, List.append_assoc]

/-- `generate_flashcards` is the concatenation, in paragraph order, of the
per-paragraph blocks. -/
lemma generate_flashcards_eq_flatten (gen : List Char → Except PyExc (List (List Char)))
    (text : List Char) (m : Nat) :
    generate_flashcards gen text m =
      ((get_relevant_paragraphs text 80 400 m).map (flashBlock gen)).flatten := by
  have hstep :
      (fun (flashcards : List Flashcard) (para : List Char) =>
          match gen para with
          | Except.ok qs => flashcards ++ qs.map (fun q => (q, para))
          | Except.error _ => flashcards) =
        fun acc para => acc ++ flashBlock gen para := by
    funext acc para
    unfold flashBlock
    cases gen para <;> simp
  rw [generate_flashcards, hstep, foldl_append_eq_flatten]
  simp

/-- Every answer in a block is the paragraph itself. -/
lemma mem_flashBlock_snd (gen : List Char → Except PyExc (List (List Char)))
    (para : List Char) (fc : Flashcard) (h : fc ∈ flashBlock gen para) :
    fc.2 = para := by
  unfold flashBlock at h
  cases hg : gen para with
  | ok qs =>
    rw [hg] at h
    obtain ⟨q, _, hq⟩ := List.mem_map.mp h
    rw [← hq]
  | error e =>
    rw [hg] at h
    simp at h

/-- The answers of a block are the paragraph, repeated once per question. -/
lemma flashBlock_map_snd (gen : List Char → Except PyExc (List (List Char)))
    (para : List Char) :
    (flashBlock gen para).map Prod.snd = List.replicate (questionCount gen para) para := by
  unfold flashBlock questionCount
  cases gen para with
  | ok qs =>
    simp only [List.map_map]
    exact List.map_const' qs para
  | error e => simp

/-! ### Paragraph-selection lemmas -/

/-- Selected paragraphs are stripped segments of the newline split. -/
lemma mem_selection (text : List Char) (a b l : Nat) (p : List Char)
    (h : p ∈ get_relevant_paragraphs text a b l) :
    ∃ q ∈ splitOnChar '\n' text,
      p = pyStrip q ∧ a ≤ (pyStrip q).length ∧ (pyStrip q).length ≤ b := by
  unfold get_relevant_paragraphs at h
  have h2 := List.mem_of_mem_take h
  obtain ⟨q, hq, hpq⟩ := List.mem_map.mp h2
  have := List.mem_filter.mp hq
  refine ⟨q, this.1, hpq.symm, ?_⟩
  have hcond := of_decide_eq_true this.2
  exact hcond

/-- Every selected paragraph is a contiguous substring of the input text. -/
lemma substring_of_mem_selection (text : List Char) (a b l : Nat) (p : List Char)
    (h : p ∈ get_relevant_paragraphs text a b l) : p <:+: text := by
  obtain ⟨q, hq, hpq, -, -⟩ := mem_selection text a b l p h
  rw [hpq]
  exact (pyStrip_substring q).trans (substring_of_mem_splitOnChar '\n' text q hq)

/-! ### Failure isolation and ordering lemmas -/

/-- A failing paragraph contributes nothing; on every other paragraph a
generator that agrees with `gen` contributes the same block.  Hence the whole
result is the `gen` result with the failing paragraph's cards removed. -/
lemma flatten_filter_blocks (gen gen' : List Char → Except PyExc (List (List Char)))
    (p0 : List Char) (e : PyExc)
    (hfail : gen' p0 = Except.error e)
    (hsame : ∀ q, q ≠ p0 → gen' q = gen q) :
    ∀ paras : List (List Char),
      (paras.map (flashBlock gen')).flatten =
        ((paras.map (flashBlock gen)).flatten).filter (fun fc => decide (fc.2 ≠ p0)) := by
  intro paras
  induction paras with
  | nil => simp
  | cons p t ih =>
    rw [List.map_cons, List.map_cons, List.flatten_cons, List.flatten_cons,
      List.filter_append, ← ih]
    by_cases hp : p = p0
    · have hblock : flashBlock gen' p = [] := by
        unfold flashBlock
        rw [hp, hfail]
      have hfilter : (flashBlock gen p).filter (fun fc => decide (fc.2 ≠ p0)) = [] := by
        rw [List.filter_eq_nil_iff]
        intro fc hfc
        have := mem_flashBlock_snd gen p fc hfc
        simp [this, hp]
      rw [hblock, hfilter, List.nil_append]
    · have hblock : flashBlock gen' p = flashBlock gen p := by
        unfold flashBlock
        rw [hsame p hp]
      have hfilter : (flashBlock gen p).filter (fun fc => decide (fc.2 ≠ p0)) =
          flashBlock gen p := by
        rw [List.filter_eq_self]
        intro fc hfc
        have := mem_flashBlock_snd gen p fc hfc
        simp [this, hp]
      rw [hblock, hfilter]

/-- For a list of the shape "each element repeated some number of times, in
order", positions map monotonically onto positions of the base list. -/
lemma exists_monotone_index (paras : List α) (n : α → Nat) :
    ∃ φ : Nat → Nat, Monotone φ ∧
      ∀ k, k < (paras.flatMap (fun p => List.replicate (n p) p)).length →
        (paras.flatMap (fun p => List.replicate (n p) p))[k]? = paras[φ k]? := by
  induction paras with
  | nil =>
    refine ⟨id, monotone_id, ?_⟩
    intro k hk
    simp at hk
  | cons p t ih =>
    obtain ⟨φ, hmono, hget⟩ := ih
    refine ⟨fun k => if k < n p then 0 else φ (k - n p) + 1, ?_, ?_⟩
    · intro a b hab
      by_cases ha : a < n p
      · by_cases hb : b < n p
        · simp [ha, hb]
        · simp [ha, hb]
      · have hb : ¬ b < n p := fun hb => ha (lt_of_le_of_lt hab hb)
        simp only [ha, hb, if_false]
        exact Nat.succ_le_succ (hmono (Nat.sub_le_sub_right hab (n p)))
    · intro k hk
      rw [List.flatMap_cons] at hk ⊢
      by_cases hkp : k < n p
      · rw [List.getElem?_append_left (by simpa using hkp)]
        simp [hkp, List.getElem?_replicate, hkp]
      · have hle : (List.replicate (n p) p).length ≤ k := by simpa using Nat.le_of_not_lt hkp
        rw [List.getElem?_append_right hle]
        simp only [hkp, if_false]
        have hk2 : k - n p < (t.flatMap (fun p => List.replicate (n p) p)).length := by
          rw [List.length_append, List.length_replicate] at hk
          omega
        rw [List.length_replicate]
        rw [hget (k - n p) hk2]
        simp

/-! ### Extension dispatch lemmas -/

/-- A non-empty suffix fixes the last element of the list. -/
lemma isSuffixOf_getLast? (s l : List Char) (hs : s ≠ [])
    (h : s.isSuffixOf l = true) : l.getLast? = s.getLast? := by
  rw [List.isSuffixOf_iff_suffix] at h
  obtain ⟨pre, hpre⟩ := h
  conv_lhs => rw [← hpre]
  exact List.getLast?_append_of_ne_nil pre hs

/-- A path ending in `".docx"` does not end in `".txt"`. -/
lemma extDocx_not_txt (path : List Char) (h : extDocx.isSuffixOf path = true) :
    extTxt.isSuffixOf path = false := by
  by_contra hx
  rw [Bool.not_eq_false] at hx
  have h1 := isSuffixOf_getLast? extDocx path (by simp [extDocx]) h
  have h2 := isSuffixOf_getLast? extTxt path (by simp [extTxt]) hx
  rw [h1] at h2
  exact absurd h2 (by decide)

/-- A path ending in `".pdf"` does not end in `".txt"`. -/
lemma extPdf_not_txt (path : List Char) (h : extPdf.isSuffixOf path = true) :
    extTxt.isSuffixOf path = false := by
  by_contra hx
  rw [Bool.not_eq_false] at hx
  have h1 := isSuffixOf_getLast? extPdf path (by simp [extPdf]) h
  have h2 := isSuffixOf_getLast? extTxt path (by simp [extTxt]) hx
  rw [h1] at h2
  exact absurd h2 (by decide)

/-- A path ending in `".pdf"` does not end in `".docx"`. -/
lemma extPdf_not_docx (path : List Char) (h : extPdf.isSuffixOf path = true) :
    extDocx.isSuffixOf path = false := by
  by_contra hx
  rw [Bool.not_eq_false] at hx
  have h1 := isSuffixOf_getLast? extPdf path (by simp [extPdf]) h
  have h2 := isSuffixOf_getLast? extDocx path (by simp [extDocx]) hx
  rw [h1] at h2
  exact absurd h2 (by decide)

/-! ### Extraction non-emptiness lemmas -/

/-- Joining a non-empty list of segments starts with the first segment. -/
lemma intercalate_cons_head (sep q : List Char) (rest : List (List Char)) :
    ∃ t, List.intercalate sep (q :: rest) = q ++ t := by
  cases rest with
  | nil => exact ⟨[], by simp [List.intercalate]⟩
  | cons r t =>
    refine ⟨sep ++ (List.intersperse sep (r :: t)).flatten, ?_⟩
    simp [List.intercalate, List.intersperse, List.append_assoc]

/-- A docx with some paragraph of non-whitespace text extracts non-empty. -/
lemma extract_docx_ne_nil (paragraphs : List (List Char)) (p : List Char)
    (hp : p ∈ paragraphs) (hstrip : pyStrip p ≠ []) :
    extract_text_from_docx paragraphs ≠ [] := by
  unfold extract_text_from_docx
  have hmem : p ∈ paragraphs.filter (fun p => decide (pyStrip p ≠ [])) :=
    List.mem_filter.mpr ⟨hp, by simp [hstrip]⟩
  cases hf : paragraphs.filter (fun p => decide (pyStrip p ≠ [])) with
  | nil =>
    rw [hf] at hmem
    simp at hmem
  | cons q rest =>
    have hqmem : q ∈ paragraphs.filter (fun p => decide (pyStrip p ≠ [])) :=
      hf ▸ List.mem_cons_self q rest
    have hq : pyStrip q ≠ [] := by
      have := (List.mem_filter.mp hqmem).2
      simpa using this
    have hqne : q ≠ [] := by
      intro h0
      rw [h0] at hq
      exact hq rfl
    obtain ⟨t, ht⟩ := intercalate_cons_head ['\n'] q rest
    rw [ht]
    intro habs
    exact hqne (List.append_eq_nil.mp habs).1

/-- `extract_text_from_pdf` concatenates the page texts. -/
lemma extract_pdf_eq_flatten (pages : List (List Char)) :
    extract_text_from_pdf pages = pages.flatten := by
  have h := foldl_append_eq_flatten (fun page : List Char => page) pages []
  simpa [extract_text_from_pdf] using h

/-! ### PDF pagination lemma -/

/-- Running the flashcard loop and saving appends, to the pages already
finished, pages whose command counts follow `pdfCmdLayout` from the current
position. -/
lemma pdfLoop_pages_map_length :
    ∀ (fcs : List Flashcard) (i : Nat) (c : Canvas) (y : Int),
      ((pdfLoop i fcs c y).1.save.pages.map List.length) =
        c.pages.map List.length ++ pdfCmdLayout fcs.length y c.cur.length := by
  intro fcs
  induction fcs with
  | nil =>
    intro i c y
    simp [pdfLoop, Canvas.save, pdfCmdLayout]
  | cons fc rest ih =>
    intro i c y
    show ((pdfLoop (i + 1) rest (pdfCard i fc c y).1 (pdfCard i fc c y).2).1.save.pages.map
        List.length) = _
    rw [ih]
    by_cases hy : y < 100
    · simp [pdfCard, Canvas.setFont, Canvas.drawString, Canvas.showPage, hy,
        pdfCmdLayout, List.append_assoc]
    · simp only [pdfCard, Canvas.setFont, Canvas.drawString, hy, if_false,
        List.length_cons, pdfCmdLayout, List.length_append, List.length_nil,
        List.length_singleton]
      have harith : y - 15 - 15 - 25 = y - 55 := by ring
      rw [harith]

/-! ### Concrete fixtures for witnesses -/

/-- An 80-character paragraph (meets the minimum length bound). -/
def paraA : List Char := List.replicate 80 'a'

/-- An 81-character paragraph. -/
def paraB : List Char := List.replicate 81 'b'

/-- A text with one qualifying line and one line below the minimum length. -/
def textAB : List Char := paraA ++ '\n' :: List.replicate 10 'b'

/-- A text with two qualifying lines. -/
def textAABB : List Char := paraA ++ '\n' :: paraB

/-- A generator answering one fixed question for every paragraph. -/
def genOne : List Char → Except PyExc (List (List Char)) :=
  fun _ => Except.ok [['q']]

/-- A generator failing exactly on `paraA` and agreeing with `genOne` elsewhere. -/
def genFail : List Char → Except PyExc (List (List Char)) :=
  fun q => if q = paraA then Except.error (PyExc.other []) else genOne q

/-! ### Claim theorems -/

/-- C1: every flashcard emitted by `generate_flashcards` has as its answer
exactly one of the paragraphs returned by `get_relevant_paragraphs` on the
same text with the same bounds (80, 400, `max_flashcards`), and that answer is
a contiguous substring of the original source text. -/
theorem C1_flashcard_answer_selected
    (gen : List Char → Except PyExc (List (List Char)))
    (text : List Char) (m : Nat) (fc : Flashcard)
    (h : fc ∈ generate_flashcards gen text m) :
    fc.2 ∈ get_relevant_paragraphs text 80 400 m ∧ fc.2 <:+: text := by
  rw [generate_flashcards_eq_flatten] at h
  obtain ⟨block, hblock, hfc⟩ := List.mem_flatten.mp h
  obtain ⟨para, hpara, hpb⟩ := List.mem_map.mp hblock
  have hsnd : fc.2 = para := mem_flashBlock_snd gen para fc (hpb ▸ hfc)
  rw [hsnd]
  exact ⟨hpara, substring_of_mem_selection text 80 400 m para hpara⟩

/-- Witness for C1 at a concrete generator, text and flashcard. -/
theorem C1_witness :
    (((['q'], paraA) : Flashcard)).2 ∈ get_relevant_paragraphs textAB 80 400 25 ∧
      (((['q'], paraA) : Flashcard)).2 <:+: textAB :=
  C1_flashcard_answer_selected genOne textAB 25 (['q'], paraA) (by decide)

/-- C2: `get_relevant_paragraphs` returns exactly the whitespace-trimmed
newline-separated segments whose trimmed length lies within the bounds,
truncated to the first `limit`, in original order; every returned paragraph
respects both bounds and at most `limit` are returned. -/
theorem C2_selection_contract (text : List Char) (min_len max_len limit : Nat) :
    get_relevant_paragraphs text min_len max_len limit =
        selectedParagraphsSpec text min_len max_len limit ∧
      (∀ p ∈ get_relevant_paragraphs text min_len max_len limit,
        min_len ≤ p.length ∧ p.length ≤ max_len) ∧
      (get_relevant_paragraphs text min_len max_len limit).length ≤ limit := by
  refine ⟨?_, ?_, ?_⟩
  · unfold get_relevant_paragraphs selectedParagraphsSpec
    rw [List.filter_map]
    rfl
  · intro p hp
    obtain ⟨q, hq, hpq, h1, h2⟩ := mem_selection text min_len max_len limit p hp
    rw [hpq]
    exact ⟨h1, h2⟩
  · unfold get_relevant_paragraphs
    exact List.length_take_le _ _

/-- Witness for C2 at a concrete text and paragraph. -/
theorem C2_witness : 80 ≤ paraA.length ∧ paraA.length ≤ 400 :=
  (C2_selection_contract textAB 80 400 25).2.1 paraA (by decide)

/-- C10: every paragraph returned by `get_relevant_paragraphs` equals its own
whitespace-trim, so stripping a returned paragraph is the identity. -/
theorem C10_selected_paragraphs_stripped (text : List Char) (a b l : Nat)
    (p : List Char) (h : p ∈ get_relevant_paragraphs text a b l) :
    pyStrip p = p := by
  obtain ⟨q, -, hpq, -, -⟩ := mem_selection text a b l p h
  rw [hpq, pyStrip_idem]

/-- Witness for C10 at a concrete text and paragraph. -/
theorem C10_witness : pyStrip paraA = paraA :=
  C10_selected_paragraphs_stripped textAB 80 400 25 paraA (by decide)

/-- C3: a failure raised while generating questions for one paragraph is
caught and that paragraph is skipped; all flashcards of the other (earlier and
later) paragraphs are still produced, in order.  `gen'` fails on `p0` and
agrees with `gen` elsewhere; its batch is exactly the `gen` batch with the
failing paragraph's flashcards removed — the batch is never aborted. -/
theorem C3_paragraph_failure_isolated
    (gen gen' : List Char → Except PyExc (List (List Char)))
    (text : List Char) (m : Nat) (p0 : List Char) (e : PyExc)
    (hfail : gen' p0 = Except.error e)
    (hsame : ∀ q, q ≠ p0 → gen' q = gen q) :
    generate_flashcards gen' text m =
      (generate_flashcards gen text m).filter (fun fc => decide (fc.2 ≠ p0)) := by
  rw [generate_flashcards_eq_flatten, generate_flashcards_eq_flatten]
  exact flatten_filter_blocks gen gen' p0 e hfail hsame _

/-- Witness for C3: a generator failing on the first of two paragraphs. -/
theorem C3_witness :
    generate_flashcards genFail textAABB 25 =
      (generate_flashcards genOne textAABB 25).filter
        (fun fc => decide (fc.2 ≠ paraA)) :=
  C3_paragraph_failure_isolated genOne genFail textAABB 25 paraA (PyExc.other [])
    (by unfold genFail; rw [if_pos rfl])
    (fun q hq => by unfold genFail; rw [if_neg hq])

/-- C5: the flashcard list is in generation order.  The sequence of answers is
exactly the selected paragraphs in their original order, each repeated once
per generated question; hence there is a monotone map from flashcard positions
to positions in the selected-paragraph list. -/
theorem C5_flashcard_order (gen : List Char → Except PyExc (List (List Char)))
    (text : List Char) (m : Nat) :
    ((generate_flashcards gen text m).map Prod.snd =
        (get_relevant_paragraphs text 80 400 m).flatMap
          (fun p => List.replicate (questionCount gen p) p)) ∧
      ∃ φ : Nat → Nat, Monotone φ ∧
        ∀ k, k < (generate_flashcards gen text m).length →
          ((generate_flashcards gen text m).map Prod.snd)[k]? =
            (get_relevant_paragraphs text 80 400 m)[φ k]? := by
  have hmain : (generate_flashcards gen text m).map Prod.snd =
      (get_relevant_paragraphs text 80 400 m).flatMap
        (fun p => List.replicate (questionCount gen p) p) := by
    rw [generate_flashcards_eq_flatten, List.map_flatten, List.map_map]
    have hfun : (List.map Prod.snd ∘ flashBlock gen) =
        fun p => List.replicate (questionCount gen p) p :=
      funext (flashBlock_map_snd gen)
    rw [hfun, List.flatMap]
  obtain ⟨φ, hmono, hget⟩ :=
    exists_monotone_index (get_relevant_paragraphs text 80 400 m) (questionCount gen)
  refine ⟨hmain, φ, hmono, ?_⟩
  intro k hk
  rw [hmain]
  apply hget
  have hlen : ((get_relevant_paragraphs text 80 400 m).flatMap
      (fun p => List.replicate (questionCount gen p) p)).length =
      (generate_flashcards gen text m).length := by
    rw [← hmain, List.length_map]
  omega

/-- Witness for C5 at a concrete generator and text. -/
theorem C5_witness :
    (generate_flashcards genOne textAABB 25).map Prod.snd =
      (get_relevant_paragraphs textAABB 80 400 25).flatMap
        (fun p => List.replicate (questionCount genOne p) p) :=
  (C5_flashcard_order genOne textAABB 25).1

/-- `extract_text` on a `.txt` path reads the file verbatim. -/
lemma extract_text_txt (fs : FS) (path : List Char)
    (h : extTxt.isSuffixOf path = true) :
    extract_text fs path = Except.ok (fs.readText path) := by
  unfold extract_text
  rw [h]
  rfl

/-- `extract_text` on a `.docx` path delegates to the docx extractor. -/
lemma extract_text_docx (fs : FS) (path : List Char)
    (h : extDocx.isSuffixOf path = true) :
    extract_text fs path = Except.ok (extract_text_from_docx (fs.docxParagraphs path)) := by
  unfold extract_text
  rw [extDocx_not_txt path h, h]
  rfl

/-- `extract_text` on a `.pdf` path delegates to the pdf extractor. -/
lemma extract_text_pdf (fs : FS) (path : List Char)
    (h : extPdf.isSuffixOf path = true) :
    extract_text fs path = Except.ok (extract_text_from_pdf (fs.pdfPages path)) := by
  unfold extract_text
  rw [extPdf_not_txt path h, extPdf_not_docx path h, h]
  rfl

/-- `extract_text` on any other path raises the unsupported-format error. -/
lemma extract_text_unsupported (fs : FS) (path : List Char)
    (h1 : extTxt.isSuffixOf path = false) (h2 : extDocx.isSuffixOf path = false)
    (h3 : extPdf.isSuffixOf path = false) :
    extract_text fs path = Except.error (PyExc.valueError unsupportedMsg) := by
  unfold extract_text
  rw [h1, h2, h3]
  rfl

/-- C4: `extract_text` raises `ValueError("Unsupported file type.")` on every
path with an unrecognized extension, and returns the file's textual content as
a single string for each of the three recognized extensions. -/
theorem C4_extract_dispatch (fs : FS) (path : List Char) :
    ((extTxt.isSuffixOf path = false ∧ extDocx.isSuffixOf path = false ∧
        extPdf.isSuffixOf path = false) →
      extract_text fs path = Except.error (PyExc.valueError unsupportedMsg)) ∧
      (extTxt.isSuffixOf path = true →
        extract_text fs path = Except.ok (fs.readText path)) ∧
      (extDocx.isSuffixOf path = true →
        extract_text fs path =
          Except.ok (extract_text_from_docx (fs.docxParagraphs path))) ∧
      (extPdf.isSuffixOf path = true →
        extract_text fs path =
          Except.ok (extract_text_from_pdf (fs.pdfPages path))) :=
  ⟨fun h => extract_text_unsupported fs path h.1 h.2.1 h.2.2,
   extract_text_txt fs path, extract_text_docx fs path, extract_text_pdf fs path⟩

/-- A concrete file system used by the extraction witnesses. -/
def fsA : FS := ⟨fun _ => ['h', 'i'], fun _ => [paraA], fun _ => [['x']]⟩

/-- Witness for C4: an unrecognized and a recognized concrete path. -/
theorem C4_witness :
    extract_text fsA ['n', '.', 'm', 'd'] =
        Except.error (PyExc.valueError unsupportedMsg) ∧
      extract_text fsA ['a', '.', 't', 'x', 't'] =
        Except.ok (fsA.readText ['a', '.', 't', 'x', 't']) :=
  ⟨(C4_extract_dispatch fsA ['n', '.', 'm', 'd']).1 ⟨by decide, by decide, by decide⟩,
   (C4_extract_dispatch fsA ['a', '.', 't', 'x', 't']).2.1 (by decide)⟩

/-- A docx file system whose single paragraph is whitespace-only: the source
document is non-empty, but extraction returns the empty string. -/
def fsWhitespaceDocx : FS := ⟨fun _ => [], fun _ => [[' ']], fun _ => []⟩

/-- C9 counterexample: a `.docx` source with one non-empty (whitespace-only)
paragraph is a non-empty source document, yet `extract_text` returns the empty
string, because `extract_text_from_docx` drops paragraphs whose stripped text
is empty.  This refutes "extraction returns non-empty text for a non-empty
source document" as stated. -/
theorem C9_counterexample :
    fsWhitespaceDocx.docxParagraphs ['a', '.', 'd', 'o', 'c', 'x'] ≠ [] ∧
      ([' '] : List Char) ≠ [] ∧
      extract_text fsWhitespaceDocx ['a', '.', 'd', 'o', 'c', 'x'] =
        Except.ok [] :=
  ⟨by decide, by decide, by rfl⟩

/-- C9 amended: extraction is non-empty provided the source has non-empty
extractable text — verbatim content for `.txt`, some paragraph with
non-whitespace text for `.docx`, non-empty concatenated page text for `.pdf`. -/
theorem C9_extract_nonempty (fs : FS) (path : List Char) :
    (extTxt.isSuffixOf path = true → fs.readText path ≠ [] →
      extract_text fs path = Except.ok (fs.readText path) ∧ fs.readText path ≠ []) ∧
      (extDocx.isSuffixOf path = true →
        (∃ p ∈ fs.docxParagraphs path, pyStrip p ≠ []) →
        ∃ s, extract_text fs path = Except.ok s ∧ s ≠ []) ∧
      (extPdf.isSuffixOf path = true → (fs.pdfPages path).flatten ≠ [] →
        ∃ s, extract_text fs path = Except.ok s ∧ s ≠ []) := by
  refine ⟨?_, ?_, ?_⟩
  · intro h hne
    exact ⟨extract_text_txt fs path h, hne⟩
  · intro h hpara
    obtain ⟨p, hp, hstrip⟩ := hpara
    exact ⟨extract_text_from_docx (fs.docxParagraphs path),
      extract_text_docx fs path h,
      extract_docx_ne_nil (fs.docxParagraphs path) p hp hstrip⟩
  · intro h hne
    refine ⟨extract_text_from_pdf (fs.pdfPages path),
      extract_text_pdf fs path h, ?_⟩
    rw [extract_pdf_eq_flatten]
    exact hne

/-- Witness for C9 (amended) at concrete paths for all three formats. -/
theorem C9_witness :
    (extract_text fsA ['a', '.', 't', 'x', 't'] =
        Except.ok (fsA.readText ['a', '.', 't', 'x', 't']) ∧
      fsA.readText ['a', '.', 't', 'x', 't'] ≠ []) ∧
      (∃ s, extract_text fsA ['a', '.', 'd', 'o', 'c', 'x'] =
          Except.ok s ∧ s ≠ []) ∧
      (∃ s, extract_text fsA ['a', '.', 'p', 'd', 'f'] =
          Except.ok s ∧ s ≠ []) :=
  ⟨(C9_extract_nonempty fsA ['a', '.', 't', 'x', 't']).1 (by decide) (by decide),
   (C9_extract_nonempty fsA ['a', '.', 'd', 'o', 'c', 'x']).2.1 (by decide)
     ⟨paraA, by decide, by decide⟩,
   (C9_extract_nonempty fsA ['a', '.', 'p', 'd', 'f']).2.2 (by decide) (by decide)⟩

/-- C6: exporting zero flashcards still produces a valid output file in both
export paths: the Word document consists of exactly the title heading and the
generation-timestamp paragraph, and the PDF consists of exactly one page
holding the title string and the timestamp string. -/
theorem C6_export_empty_valid (now : List Char) :
    export_to_word now [] =
        [DocxItem.heading "Flashcards".data 1,
         DocxItem.par ("Generated on ".data ++ now ++ ['\n']) none] ∧
      (export_to_pdf now []).pages =
        [[⟨50, 742, "Helvetica-Bold".data, 14, "Flashcards".data⟩,
          ⟨50, 717, "Helvetica".data, 10, "Generated on ".data ++ now⟩]] := by
  constructor
  · rfl
  · simp only [export_to_pdf, pdfLoop, Canvas.setFont, Canvas.drawString, Canvas.save]
    norm_num

/-- The flashcard used by the export witnesses and counterexample. -/
def cardQA : Flashcard := (['q'], ['a'])

/-- C7 counterexample: with flashcards present, cancelling the export-format
dialog makes `export_output` evaluate `None.strip()`, raising an uncaught
`AttributeError` — it does not report an invalid-format error to the user, so
the claim's "including a cancelled dialog" case fails (no file is written, but
the error is a crash of the handler, not a reported abort). -/
theorem C7_counterexample :
    export_output [cardQA] none (some ['o']) ['t'] = ExportOutcome.attrError ∧
      ExportOutcome.attrError ≠ ExportOutcome.invalidFormat :=
  ⟨by rfl, by decide⟩

/-- C7 amended: when the user enters a format string other than `pdf`/`word`
(after strip and lower-casing), `export_output` reports the invalid-format
error and aborts — nothing is written and the stored flashcards are untouched;
a cancelled dialog instead raises `AttributeError` out of the handler (also
writing nothing). -/
theorem C7_invalid_format_aborts (cards : List Flashcard) (s : List Char)
    (saveReply : Option (List Char)) (now : List Char)
    (hcards : cards ≠ [])
    (h1 : pyStripLower s ≠ "pdf".data) (h2 : pyStripLower s ≠ "word".data) :
    export_output cards (some s) saveReply now = ExportOutcome.invalidFormat ∧
      export_output cards none saveReply now = ExportOutcome.attrError := by
  constructor
  · unfold export_output
    rw [if_neg hcards]
    simp [h1, h2]
  · unfold export_output
    rw [if_neg hcards]

/-- Witness for C7 (amended) at a concrete invalid format string. -/
theorem C7_witness :
    export_output [cardQA] (some " CSV ".data) (some ['o']) ['t'] =
        ExportOutcome.invalidFormat ∧
      export_output [cardQA] none (some ['o']) ['t'] = ExportOutcome.attrError :=
  C7_invalid_format_aborts [cardQA] " CSV ".data (some ['o']) ['t']
    (by decide) (by decide) (by decide)

/-- C8: the pages of a PDF export, measured in drawn strings per page, are
exactly `pdfPagePlan` of the number of flashcards: a new page begins exactly
when `y` has fallen below the fixed threshold 100 before drawing the next
flashcard, each flashcard consumes a fixed height of 55 points (a fresh page
starts at 742), and the page each flashcard lands on depends only on how many
flashcards precede it, never on any flashcard's content. -/
theorem C8_pdf_pagination (now : List Char) (flashcards : List Flashcard) :
    (export_to_pdf now flashcards).pages.map List.length =
        pdfPagePlan flashcards.length ∧
      ∀ (now' : List Char) (others : List Flashcard),
        others.length = flashcards.length →
        (export_to_pdf now' others).pages.map List.length =
          (export_to_pdf now flashcards).pages.map List.length := by
  have key : ∀ (ts : List Char) (l : List Flashcard),
      (export_to_pdf ts l).pages.map List.length = pdfPagePlan l.length := by
    intro ts l
    simp only [export_to_pdf, Canvas.setFont, Canvas.drawString]
    rw [pdfLoop_pages_map_length]
    norm_num [pdfPagePlan]
  exact ⟨key now flashcards,
    fun now' others h => by rw [key now' others, key now flashcards, h]⟩

/-- Witness for C8: two single-flashcard exports with different content and
timestamps paginate identically. -/
theorem C8_witness :
    (export_to_pdf ['t'] [cardQA]).pages.map List.length =
      (export_to_pdf ['u'] [(paraA, paraB)]).pages.map List.length :=
  (C8_pdf_pagination ['u'] [(paraA, paraB)]).2 ['t'] [cardQA] (by decide)

end FlashG
